import Mathlib

/-!
Verification of the observer-relative geometry and event-prediction engine of
the hamclock backend: the Maidenhead grid codec (`maidenhead.py`), the satellite
pass grouping (`satellites.py`), and the day/night terminator tracer
(`astronomy.py`).  Python floats are modelled as exact rationals `ℚ`
(trigonometric code as reals `ℝ`); Python strings as `List Char`; functions that
raise `ValueError` return `Except String`.  External collaborators (the Skyfield
position source, `find_events`, and the topocentric `altaz` readout) enter the
model as explicit parameters.
-/

namespace HamClock

/-- Python's `%` on floats with a positive modulus: `a % b = a - b * floor (a / b)`. -/
def pymod (a b : ℚ) : ℚ := a - b * ⌊a / b⌋

/-- Round-half-to-even of a rational to an integer, the tie-breaking rule used
by Python's builtin `round`. -/
def roundHalfEven (x : ℚ) : ℤ :=
  let f := ⌊x⌋
  if x - f < 1/2 then f
  else if 1/2 < x - f then f + 1
  else if 2 ∣ f then f else f + 1

/-- Python's `round(x, 1)`: round to the nearest multiple of `1/10`, ties to even. -/
def round1 (x : ℚ) : ℚ := (roundHalfEven (10 * x) : ℚ) / 10

namespace Maidenhead

/-- `str.upper()` restricted to one character: ASCII lowercase letters are
shifted to uppercase, everything else kept. -/
def toUpperChar (c : Char) : Char :=
  if 97 ≤ c.toNat ∧ c.toNat ≤ 122 then Char.ofNat (c.toNat - 32) else c

/-- `str.isdigit()` on one ASCII character. -/
def isDigitChar (c : Char) : Bool := 48 ≤ c.toNat && c.toNat ≤ 57

/-- `MaidenheadService.latlong_to_grid` from `maidenhead.py`.  The Python
`int(...)` truncations are applied to values that are nonnegative under the
range guards, so they are floors (`Int.toNat` of the floor); `str(int(...))`
is `Nat.toDigits 10`; `chr(ord('A') + k)` is `Char.ofNat (65 + k)`. -/
def latlong_to_grid (latitude longitude : ℚ) (precision : ℕ) : Except String (List Char) :=
  if ¬(-90 ≤ latitude ∧ latitude ≤ 90) then
    .error "Latitude must be between -90 and 90"
  else if ¬(-180 ≤ longitude ∧ longitude ≤ 180) then
    .error "Longitude must be between -180 and 180"
  else if ¬(precision = 2 ∨ precision = 4 ∨ precision = 6 ∨ precision = 8) then
    .error "Precision must be 2, 4, 6, or 8"
  else
    let lon := longitude + 180
    let lat := latitude + 90
    let fieldPart := [Char.ofNat (65 + (⌊lon / 20⌋).toNat), Char.ofNat (65 + (⌊lat / 10⌋).toNat)]
    let squarePart :=
      if 4 ≤ precision then
        Nat.toDigits 10 (⌊pymod lon 20 / 2⌋).toNat ++ Nat.toDigits 10 (⌊pymod lat 10 / 1⌋).toNat
      else []
    let subsquarePart :=
      if 6 ≤ precision then
        [Char.ofNat (65 + (⌊pymod lon 2 / 2 * 24⌋).toNat),
         Char.ofNat (65 + (⌊pymod lat 1 / 1 * 24⌋).toNat)]
      else []
    let extendedPart :=
      if precision = 8 then
        Nat.toDigits 10 (⌊pymod (pymod lon 2 / 2 * 24) 1 * 10⌋).toNat ++
          Nat.toDigits 10 (⌊pymod (pymod lat 1 / 1 * 24) 1 * 10⌋).toNat
      else []
    .ok (fieldPart ++ squarePart ++ subsquarePart ++ extendedPart)

/-- `MaidenheadService.grid_to_latlong` from `maidenhead.py`.  Character tests
`ord(g[i]) < ord('A')` etc. become `toNat` comparisons (65 = 'A', 88 = 'X',
82 = 'R', 48 = '0').  Indexing is guarded by the length checks exactly as in
the source, so `getD` defaults are never consulted.  Returns `(lat, lon)` of
the cell centre, as the source does. -/
def grid_to_latlong (g : List Char) : Except String (ℚ × ℚ) :=
  let grid := g.map toUpperChar
  if grid.length < 2 ∨ 8 < grid.length ∨ grid.length % 2 ≠ 0 then
    .error "Grid must be 2, 4, 6, or 8 characters"
  else
    let c0 := grid.getD 0 'A'
    let c1 := grid.getD 1 'A'
    if c0.toNat < 65 ∨ 88 < c0.toNat then .error "Invalid field letter"
    else if c1.toNat < 65 ∨ 82 < c1.toNat then .error "Invalid field letter"
    else
      let raw : Except String (ℚ × ℚ) :=
        let lon : ℚ := ((c0.toNat : ℚ) - 65) * 20 - 180
        let lat : ℚ := ((c1.toNat : ℚ) - 65) * 10 - 90
        if 4 ≤ grid.length then
          let c2 := grid.getD 2 '0'
          let c3 := grid.getD 3 '0'
          if ¬(isDigitChar c2 = true ∧ isDigitChar c3 = true) then .error "Invalid square"
          else
            let lon := lon + ((c2.toNat : ℚ) - 48) * 2
            let lat := lat + ((c3.toNat : ℚ) - 48) * 1
            if 6 ≤ grid.length then
              let c4 := grid.getD 4 'A'
              let c5 := grid.getD 5 'A'
              if c4.toNat < 65 ∨ 88 < c4.toNat then .error "Invalid subsquare letter"
              else if c5.toNat < 65 ∨ 88 < c5.toNat then .error "Invalid subsquare letter"
              else
                let lon := lon + ((c4.toNat : ℚ) - 65) / 12
                let lat := lat + ((c5.toNat : ℚ) - 65) / 24
                if grid.length = 8 then
                  let c6 := grid.getD 6 '0'
                  let c7 := grid.getD 7 '0'
                  if ¬(isDigitChar c6 = true ∧ isDigitChar c7 = true) then
                    .error "Invalid extended"
                  else .ok (lon + ((c6.toNat : ℚ) - 48) / 120, lat + ((c7.toNat : ℚ) - 48) / 240)
                else .ok (lon, lat)
            else .ok (lon, lat)
        else .ok (lon, lat)
      match raw with
      | .error e => .error e
      | .ok (lon, lat) =>
        if grid.length = 2 then .ok (lat + 5, lon + 10)
        else if grid.length = 4 then .ok (lat + 1/2, lon + 1)
        else if grid.length = 6 then .ok (lat + 1/48, lon + 1/24)
        else if grid.length = 8 then .ok (lat + 1/480, lon + 1/240)
        else .ok (lat, lon)

/-- `MaidenheadService.is_valid_grid` from `maidenhead.py` (the `try/except`
wrapper is dead for character-list inputs; the redundant `int(grid[i]) > 9`
check of the source is kept). -/
def is_valid_grid (g : List Char) : Bool :=
  let grid := g.map toUpperChar
  if grid.length < 2 ∨ 8 < grid.length ∨ grid.length % 2 ≠ 0 then false
  else if (grid.getD 0 'A').toNat < 65 ∨ 88 < (grid.getD 0 'A').toNat then false
  else if (grid.getD 1 'A').toNat < 65 ∨ 82 < (grid.getD 1 'A').toNat then false
  else if 4 ≤ grid.length ∧
      ¬(isDigitChar (grid.getD 2 '0') = true ∧ isDigitChar (grid.getD 3 '0') = true) then false
  else if 4 ≤ grid.length ∧
      (9 < (grid.getD 2 '0').toNat - 48 ∨ 9 < (grid.getD 3 '0').toNat - 48) then false
  else if 6 ≤ grid.length ∧
      ((grid.getD 4 'A').toNat < 65 ∨ 88 < (grid.getD 4 'A').toNat) then false
  else if 6 ≤ grid.length ∧
      ((grid.getD 5 'A').toNat < 65 ∨ 88 < (grid.getD 5 'A').toNat) then false
  else if grid.length = 8 ∧
      ¬(isDigitChar (grid.getD 6 '0') = true ∧ isDigitChar (grid.getD 7 '0') = true) then false
  else true

/-- `math.radians`: degrees to radians. -/
noncomputable def radians (d : ℝ) : ℝ := d * (Real.pi / 180)

/-- `math.degrees`: radians to degrees. -/
noncomputable def degrees (r : ℝ) : ℝ := r * (180 / Real.pi)

/-- `math.atan2 y x` for finite arguments: the angle of the point `(x, y)`. -/
noncomputable def atan2 (y x : ℝ) : ℝ :=
  if 0 < x then Real.arctan (y / x)
  else if x < 0 ∧ 0 ≤ y then Real.arctan (y / x) + Real.pi
  else if x < 0 then Real.arctan (y / x) - Real.pi
  else if 0 < y then Real.pi / 2
  else if y < 0 then -(Real.pi / 2)
  else 0

/-- Python's float `%` with a positive modulus, over the reals. -/
noncomputable def pymodR (a b : ℝ) : ℝ := a - b * ⌊a / b⌋

/-- `MaidenheadService._haversine_distance_azimuth` from `maidenhead.py`,
over the reals: returns `(distance_km, azimuth_degrees)`.  The source calls
`math.atan2(x, y)`, i.e. its `x` is the y-argument of `atan2`. -/
noncomputable def haversine_distance_azimuth (lat1 lon1 lat2 lon2 : ℝ) : ℝ × ℝ :=
  let R : ℝ := 6371
  let lat1_rad := radians lat1
  let lon1_rad := radians lon1
  let lat2_rad := radians lat2
  let lon2_rad := radians lon2
  let dlat := lat2_rad - lat1_rad
  let dlon := lon2_rad - lon1_rad
  let a := Real.sin (dlat / 2) ^ 2 +
    Real.cos lat1_rad * Real.cos lat2_rad * Real.sin (dlon / 2) ^ 2
  let c := 2 * Real.arcsin (Real.sqrt a)
  let distance := R * c
  let x := Real.sin dlon * Real.cos lat2_rad
  let y := Real.cos lat1_rad * Real.sin lat2_rad -
    Real.sin lat1_rad * Real.cos lat2_rad * Real.cos dlon
  let azimuth := pymodR (degrees (atan2 x y) + 360) 360
  (distance, azimuth)

/-- Half of the longitude extent of a grid cell at each supported precision
(20°, 2°, 5′ and 2.5″ wide cells). -/
def cellHalfLon : ℕ → ℚ
  | 2 => 10
  | 4 => 1
  | 6 => 1/24
  | 8 => 1/240
  | _ => 0

/-- Half of the latitude extent of a grid cell at each supported precision. -/
def cellHalfLat : ℕ → ℚ
  | 2 => 5
  | 4 => 1/2
  | 6 => 1/48
  | 8 => 1/480
  | _ => 0

end Maidenhead

namespace Satellites

/-- The event labels of `calculate_passes` in `satellites.py`:
`['AOS', 'MAX', 'LOS'][event]`. -/
inductive EventType where
  | AOS : EventType
  | MAX : EventType
  | LOS : EventType
deriving DecidableEq, Repr

/-- The indexing `['AOS', 'MAX', 'LOS'][event]` applied to a Skyfield event
code (0 = rise, 1 = culminate, 2 = set). -/
def eventTypeOf (e : Fin 3) : EventType :=
  if e.val = 0 then .AOS else if e.val = 1 then .MAX else .LOS

/-- The `event_data` dict built for each event inside `calculate_passes`:
time, label, and the topocentric elevation/azimuth/distance at that time. -/
structure EventData where
  time : ℚ
  event : EventType
  elevation : ℚ
  azimuth : ℚ
  distance_km : ℚ
deriving DecidableEq, Repr

/-- The `current_pass` dict while a pass is being accumulated.  It is created
only on an `AOS` event, with `aos` always set and `los`/`duration` still
`None`, so those two fields are omitted here. -/
structure CurrentPass where
  aos : EventData
  max : Option EventData
  max_elevation : Option ℚ
deriving DecidableEq, Repr

/-- A completed pass dict as appended to `passes` in `calculate_passes`. -/
structure Pass where
  aos : Option EventData
  max : Option EventData
  los : Option EventData
  duration_minutes : Option ℚ
  max_elevation : Option ℚ
deriving DecidableEq, Repr

/-- The event-grouping loop of `calculate_passes` (`satellites.py` lines
277-320).  `obs t` stands for the Skyfield topocentric readout
`(satellite - observer).at(ti).altaz()` as `(elevation, azimuth, distance)`;
`events` is the `zip(times, events)` stream from `find_events`.  Note the loop
appends a pass only on an `LOS` event; a `current_pass` still open when the
list ends is discarded, and the ISO-format round-trip of the times is the
identity here. -/
def groupEvents (obs : ℚ → ℚ × ℚ × ℚ) : List (ℚ × Fin 3) → Option CurrentPass → List Pass
  | [], _ => []
  | (ti, ev) :: rest, current =>
    let alt := (obs ti).1
    let az := (obs ti).2.1
    let dist := (obs ti).2.2
    let event_type := eventTypeOf ev
    let event_data : EventData := ⟨ti, event_type, alt, az, dist⟩
    match event_type with
    | .AOS => groupEvents obs rest (some ⟨event_data, none, none⟩)
    | .MAX =>
      match current with
      | some cp => groupEvents obs rest (some ⟨cp.aos, some event_data, some alt⟩)
      | none => groupEvents obs rest none
    | .LOS =>
      match current with
      | some cp =>
        let duration := round1 ((ti - cp.aos.time) / 60)
        (⟨some cp.aos, cp.max, some event_data, some duration, cp.max_elevation⟩ : Pass) ::
          groupEvents obs rest none
      | none => groupEvents obs rest none

/-- `SatelliteService.calculate_passes`: looks the satellite up by name
(raising `ValueError` if absent) and groups the `find_events` output.  The
observer coordinates are passed to `wgs84.latlon` unchecked.  `sats` is the
key set of `self.satellites`; `events` the output of Skyfield's
`find_events` for the queried window and `min_elevation`. -/
def calculate_passes (sats : List String) (sat_name : String)
    (observer_lat observer_lng : ℚ) (obs : ℚ → ℚ × ℚ × ℚ)
    (events : List (ℚ × Fin 3)) : Except String (List Pass) :=
  if sat_name ∈ sats then .ok (groupEvents obs events none)
  else .error "Satellite not found"

/-- The dict returned by `SatelliteService.get_satellite_position`
(observer echo plus the topocentric readout fields the claims mention). -/
structure PositionInfo where
  satellite : String
  observer_latitude : ℚ
  observer_longitude : ℚ
  azimuth : ℚ
  elevation : ℚ
  distance_km : ℚ
  above_horizon : Bool
deriving DecidableEq, Repr

/-- `SatelliteService.get_satellite_position`: raises `ValueError` only for an
unknown satellite name; the observer latitude/longitude go straight into
`wgs84.latlon` with no range validation.  `topo` is the external Skyfield
topocentric readout `(elevation, azimuth, distance)`. -/
def get_satellite_position (sats : List String) (sat_name : String)
    (observer_lat observer_lng : ℚ) (topo : ℚ × ℚ × ℚ) : Except String PositionInfo :=
  if sat_name ∈ sats then
    .ok ⟨sat_name, observer_lat, observer_lng, topo.2.1, topo.1, topo.2.2, decide (0 < topo.1)⟩
  else .error "Satellite not found"

/-- The rise time used for ordering statements: the `aos` event's time, or `0`
for a pass without one (no such pass is ever produced). -/
def aosTime (p : Pass) : ℚ :=
  match p.aos with
  | some a => a.time
  | none => 0

/-- A pass as emitted by the grouping loop: both boundary events present, in
order, with the duration the loop computes. -/
def passComplete (p : Pass) : Prop :=
  ∃ a l, p.aos = some a ∧ p.los = some l ∧ a.time < l.time ∧
    p.duration_minutes = some (round1 ((l.time - a.time) / 60)) ∧
    ∀ m, p.max = some m → a.time < m.time ∧ m.time < l.time

/-- The concrete topocentric readout used in witnesses and counterexamples:
constant elevation 45°, azimuth 10°, range 500 km. -/
def obsW : ℚ → ℚ × ℚ × ℚ := fun _ => (45, 10, 500)

end Satellites

namespace Astronomy

/-- `np.linspace a b num` with the default `endpoint=True`: `num` evenly
spaced samples from `a` to `b` inclusive (for `num = 1` numpy returns `[a]`,
which the formula also yields since division by zero is zero in `ℚ`). -/
def linspace (a b : ℚ) (num : ℕ) : List ℚ :=
  (List.range num).map (fun i : ℕ => a + (b - a) * (i : ℚ) / ((num : ℚ) - 1))

/-- The 20-iteration latitude bisection inside `get_day_night_terminator`.
`alt lat lng` is the external Skyfield solar elevation at `(lat, lng)` for the
fixed instant.  The Python loop `for _ in range(20)` returns the midpoint
computed in its final iteration, i.e. the midpoint after 19 interval updates,
so it is `terminatorSearch alt lng 19 (-90) 90`. -/
def terminatorSearch (alt : ℚ → ℚ → ℚ) (lng : ℚ) : ℕ → ℚ → ℚ → ℚ
  | 0, lat_min, lat_max => (lat_min + lat_max) / 2
  | n + 1, lat_min, lat_max =>
    let lat := (lat_min + lat_max) / 2
    if 0 < alt lat lng then terminatorSearch alt lng n lat_min lat
    else terminatorSearch alt lng n lat lat_max

/-- `AstronomyService.get_day_night_terminator`: one `(lat, lng)` sample per
longitude of `np.linspace(-180, 180, num_points)`. -/
def get_day_night_terminator (alt : ℚ → ℚ → ℚ) (num_points : ℕ) : List (ℚ × ℚ) :=
  (linspace (-180) 180 num_points).map (fun lng => (terminatorSearch alt lng 19 (-90) 90, lng))

end Astronomy

end HamClock

section PassLemmas

open HamClock HamClock.Satellites

theorem groupEvents_no_los (obs : ℚ → ℚ × ℚ × ℚ) :
    ∀ (events : List (ℚ × Fin 3)) (current : Option CurrentPass),
      (∀ q ∈ events, eventTypeOf q.2 ≠ EventType.LOS) →
      groupEvents obs events current = [] := by
  intro events
  induction events with
  | nil => intro current _; rfl
  | cons e rest ih =>
    intro current hno
    obtain ⟨t, ev⟩ := e
    have hhead : eventTypeOf ev ≠ EventType.LOS := hno (t, ev) (List.mem_cons_self _ _)
    have htail : ∀ q ∈ rest, eventTypeOf q.2 ≠ EventType.LOS :=
      fun q hq => hno q (List.mem_cons_of_mem _ hq)
    cases het : eventTypeOf ev with
    | AOS => simp only [groupEvents, het]; exact ih _ htail
    | MAX =>
      simp only [groupEvents, het]
      cases current with
      | none => exact ih _ htail
      | some cp => exact ih _ htail
    | LOS => exact absurd het hhead

theorem groupEvents_all_closed (obs : ℚ → ℚ × ℚ × ℚ) :
    ∀ (events : List (ℚ × Fin 3)) (current : Option CurrentPass),
      ∀ p ∈ groupEvents obs events current, p.aos.isSome ∧ p.los.isSome := by
  intro events
  induction events with
  | nil => intro current p hp; simp [groupEvents] at hp
  | cons e rest ih =>
    intro current p hp
    obtain ⟨t, ev⟩ := e
    cases het : eventTypeOf ev with
    | AOS =>
      simp only [groupEvents, het] at hp
      exact ih _ p hp
    | MAX =>
      simp only [groupEvents, het] at hp
      cases current with
      | none => exact ih _ p hp
      | some cp => exact ih _ p hp
    | LOS =>
      simp only [groupEvents, het] at hp
      cases current with
      | none => exact ih _ p hp
      | some cp =>
        rcases List.mem_cons.mp hp with hpe | hpm
        · subst hpe; exact ⟨rfl, rfl⟩
        · exact ih _ p hpm

theorem groupEvents_spec (obs : ℚ → ℚ × ℚ × ℚ) :
    ∀ (events : List (ℚ × Fin 3)) (current : Option CurrentPass),
      events.Pairwise (fun a b => a.1 < b.1) →
      (∀ cp, current = some cp →
        (∀ q ∈ events, cp.aos.time < q.1) ∧
        ∀ m, cp.max = some m → cp.aos.time < m.time ∧ ∀ q ∈ events, m.time < q.1) →
      (∀ p ∈ groupEvents obs events current, passComplete p) ∧
      ((groupEvents obs events current).map aosTime).Pairwise (· < ·) ∧
      (∀ p ∈ groupEvents obs events current, ∀ a, p.aos = some a →
        (∃ cp, current = some cp ∧ a = cp.aos) ∨ a.time ∈ events.map Prod.fst) := by
  intro events
  induction events with
  | nil =>
    intro current _ _
    refine ⟨?_, ?_, ?_⟩ <;> simp [groupEvents]
  | cons e rest ih =>
    intro current hpw hcur
    obtain ⟨t, ev⟩ := e
    rw [List.pairwise_cons] at hpw
    obtain ⟨hhead, hrest⟩ := hpw
    cases current with
    | none =>
      cases het : eventTypeOf ev with
      | AOS =>
        simp only [groupEvents, het]
        obtain ⟨h1, h2, h3⟩ := ih (some ⟨⟨t, EventType.AOS, (obs t).1, (obs t).2.1, (obs t).2.2⟩,
            none, none⟩) hrest (by
          intro cp hcp
          cases hcp
          exact ⟨fun q hq => hhead q hq, fun m hm => absurd hm (by simp)⟩)
        refine ⟨h1, h2, ?_⟩
        intro p hp a ha
        rcases h3 p hp a ha with ⟨cp, hcp, haeq⟩ | hmem
        · cases hcp
          subst haeq
          simp
        · right; simp only [List.map_cons, List.mem_cons]; exact Or.inr hmem
      | MAX =>
        simp only [groupEvents, het]
        obtain ⟨h1, h2, h3⟩ := ih none hrest (by intro cp h; cases h)
        refine ⟨h1, h2, ?_⟩
        intro p hp a ha
        rcases h3 p hp a ha with ⟨cp, hcp, _⟩ | hmem
        · cases hcp
        · right; simp only [List.map_cons, List.mem_cons]; exact Or.inr hmem
      | LOS =>
        simp only [groupEvents, het]
        obtain ⟨h1, h2, h3⟩ := ih none hrest (by intro cp h; cases h)
        refine ⟨h1, h2, ?_⟩
        intro p hp a ha
        rcases h3 p hp a ha with ⟨cp, hcp, _⟩ | hmem
        · cases hcp
        · right; simp only [List.map_cons, List.mem_cons]; exact Or.inr hmem
    | some cp =>
      obtain ⟨haos, hmax⟩ := hcur cp rfl
      have haos_t : cp.aos.time < t := haos (t, ev) (List.mem_cons_self _ _)
      cases het : eventTypeOf ev with
      | AOS =>
        simp only [groupEvents, het]
        obtain ⟨h1, h2, h3⟩ := ih (some ⟨⟨t, EventType.AOS, (obs t).1, (obs t).2.1, (obs t).2.2⟩,
            none, none⟩) hrest (by
          intro cp' hcp'
          cases hcp'
          exact ⟨fun q hq => hhead q hq, fun m hm => absurd hm (by simp)⟩)
        refine ⟨h1, h2, ?_⟩
        intro p hp a ha
        rcases h3 p hp a ha with ⟨cp', hcp', haeq⟩ | hmem
        · cases hcp'
          subst haeq
          simp
        · right; simp only [List.map_cons, List.mem_cons]; exact Or.inr hmem
      | MAX =>
        simp only [groupEvents, het]
        obtain ⟨h1, h2, h3⟩ := ih (some ⟨cp.aos,
            some ⟨t, EventType.MAX, (obs t).1, (obs t).2.1, (obs t).2.2⟩, some (obs t).1⟩)
            hrest (by
          intro cp' hcp'
          cases hcp'
          refine ⟨fun q hq => haos q (List.mem_cons_of_mem _ hq), ?_⟩
          intro m hm
          simp only [Option.some.injEq] at hm
          subst hm
          exact ⟨haos_t, fun q hq => hhead q hq⟩)
        refine ⟨h1, h2, ?_⟩
        intro p hp a ha
        rcases h3 p hp a ha with ⟨cp', hcp', haeq⟩ | hmem
        · cases hcp'
          exact Or.inl ⟨cp, rfl, haeq⟩
        · right; simp only [List.map_cons, List.mem_cons]; exact Or.inr hmem
      | LOS =>
        simp only [groupEvents, het]
        obtain ⟨h1, h2, h3⟩ := ih none hrest (by intro cp' h; cases h)
        have htail_gt : ∀ p ∈ groupEvents obs rest none, t < aosTime p := by
          intro p hp
          obtain ⟨a, l, ha, -⟩ := h1 p hp
          rcases h3 p hp a ha with ⟨cp', hcp', -⟩ | hmem
          · cases hcp'
          · rw [List.mem_map] at hmem
            obtain ⟨q, hq, hqt⟩ := hmem
            have ht : t < q.1 := hhead q hq
            have haq : aosTime p = a.time := by simp [aosTime, ha]
            rw [haq, ← hqt]
            exact ht
        refine ⟨?_, ?_, ?_⟩
        · intro p hp
          rcases List.mem_cons.mp hp with hpe | hpm
          · subst hpe
            refine ⟨cp.aos, ⟨t, EventType.LOS, (obs t).1, (obs t).2.1, (obs t).2.2⟩,
              rfl, rfl, haos_t, rfl, ?_⟩
            intro m hm
            obtain ⟨hm1, hm2⟩ := hmax m hm
            exact ⟨hm1, hm2 (t, ev) (List.mem_cons_self _ _)⟩
          · exact h1 p hpm
        · rw [List.map_cons, List.pairwise_cons]
          refine ⟨?_, h2⟩
          intro x hx
          rw [List.mem_map] at hx
          obtain ⟨p, hp, hpx⟩ := hx
          have h5 := htail_gt p hp
          have haim : aosTime (⟨some cp.aos, cp.max,
              some ⟨t, EventType.LOS, (obs t).1, (obs t).2.1, (obs t).2.2⟩,
              some (round1 ((t - cp.aos.time) / 60)), cp.max_elevation⟩ : Pass) =
              cp.aos.time := by simp [aosTime]
          rw [haim, ← hpx]
          exact lt_trans haos_t h5
        · intro p hp a ha
          rcases List.mem_cons.mp hp with hpe | hpm
          · subst hpe
            simp only [Option.some.injEq] at ha
            exact Or.inl ⟨cp, rfl, ha.symm⟩
          · rcases h3 p hpm a ha with ⟨cp', hcp', -⟩ | hmem
            · cases hcp'
            · right; simp only [List.map_cons, List.mem_cons]; exact Or.inr hmem

theorem round1_nonneg {x : ℚ} (hx : 0 ≤ x) : 0 ≤ round1 x := by
  have hf : (0 : ℤ) ≤ ⌊10 * x⌋ := Int.floor_nonneg.mpr (by linarith)
  simp only [round1, roundHalfEven]
  split_ifs <;> refine div_nonneg ?_ (by norm_num)
  · exact_mod_cast hf
  · exact_mod_cast (by omega : (0 : ℤ) ≤ ⌊10 * x⌋ + 1)
  · exact_mod_cast hf
  · exact_mod_cast (by omega : (0 : ℤ) ≤ ⌊10 * x⌋ + 1)

end PassLemmas

section PassClaims

open HamClock HamClock.Satellites

/-- C1: the spec claims a body whose elevation stays above `min_elevation` for
the whole window (circumpolar) yields exactly one partial pass covering the
window.  Counterexample: for such a body Skyfield's `find_events` reports no
rise and no set events (only culminations); on the culmination-only stream
`[(0, 1)]` the grouping loop of `calculate_passes` returns zero passes, not
one. -/
theorem circumpolar_zero_passes_cex :
    calculate_passes ["ISS"] "ISS" 0 0 obsW [(0, 1)] = .ok [] ∧
    ([] : List Pass).length ≠ 1 := by
  constructor
  · rfl
  · decide

/-- C1 (amended): a window in which the body never crosses `min_elevation`
(so `find_events` emits neither rise (`AOS`) nor set (`LOS`) events, as for a
circumpolar body) makes `calculate_passes` return zero passes: the
window-spanning pass is not reported, partially or otherwise. -/
theorem calculate_passes_no_crossings_empty
    (sats : List String) (sat_name : String) (lat lng : ℚ) (obs : ℚ → ℚ × ℚ × ℚ)
    (events : List (ℚ × Fin 3))
    (hfound : sat_name ∈ sats)
    (hnoc : ∀ q ∈ events, eventTypeOf q.2 ≠ EventType.AOS ∧ eventTypeOf q.2 ≠ EventType.LOS) :
    calculate_passes sats sat_name lat lng obs events = .ok [] := by
  unfold calculate_passes
  rw [if_pos hfound, groupEvents_no_los obs events none (fun q hq => (hnoc q hq).2)]

theorem calculate_passes_no_crossings_empty_witness :
    calculate_passes ["ISS"] "ISS" 0 0 obsW [(0, 1), (30, 1)] = .ok [] :=
  calculate_passes_no_crossings_empty ["ISS"] "ISS" 0 0 obsW [(0, 1), (30, 1)]
    (by decide) (by decide)

/-- C2: the spec claims a window boundary reached while a pass is in progress
(an `AOS` with no matching `LOS`) yields a partial `Pass`, flagged as such,
never silently dropped.  Counterexample: on the event stream `[(0, 0)]`
(a single rise, window ends in-pass) `calculate_passes` returns the empty
list — the in-progress pass is silently dropped. -/
theorem open_pass_dropped_cex :
    calculate_passes ["ISS"] "ISS" 0 0 obsW [(0, 0)] = .ok [] := by
  rfl

/-- C2 (amended): a pass still open when the window boundary is reached is
dropped: every pass `calculate_passes` returns was closed by an `LOS` event
inside the window (both `aos` and `los` present); no partial pass is ever
emitted. -/
theorem calculate_passes_no_partial_passes
    (sats : List String) (sat_name : String) (lat lng : ℚ) (obs : ℚ → ℚ × ℚ × ℚ)
    (events : List (ℚ × Fin 3)) (ps : List Pass)
    (hok : calculate_passes sats sat_name lat lng obs events = .ok ps) :
    ∀ p ∈ ps, p.aos.isSome ∧ p.los.isSome := by
  have hps : ps = groupEvents obs events none := by
    unfold calculate_passes at hok
    by_cases h : sat_name ∈ sats
    · rw [if_pos h] at hok
      injection hok with h'
      exact h'.symm
    · rw [if_neg h] at hok
      cases hok
  subst hps
  exact groupEvents_all_closed obs events none

theorem calculate_passes_no_partial_passes_witness :
    (⟨some ⟨0, .AOS, 45, 10, 500⟩, none, some ⟨60, .LOS, 45, 10, 500⟩,
      some (round1 ((60 - 0) / 60)), none⟩ : Pass).aos.isSome ∧
    (⟨some ⟨0, .AOS, 45, 10, 500⟩, none, some ⟨60, .LOS, 45, 10, 500⟩,
      some (round1 ((60 - 0) / 60)), none⟩ : Pass).los.isSome :=
  calculate_passes_no_partial_passes ["ISS"] "ISS" 0 0 obsW
    [((0 : ℚ), (0 : Fin 3)), (60, 2)] _ rfl _ (List.mem_singleton.mpr rfl)

/-- C4: for every `calculate_passes` result (given the chronologically
ordered event stream `find_events` produces), the passes are sorted strictly
ascending by rise (`AOS`) time — every returned pass has a rise, so the
"window start" fallback never applies — and within each pass
rise.time < culminate.time (when present) < set.time. -/
theorem calculate_passes_sorted_and_ordered
    (sats : List String) (sat_name : String) (lat lng : ℚ) (obs : ℚ → ℚ × ℚ × ℚ)
    (events : List (ℚ × Fin 3)) (ps : List Pass)
    (hsorted : events.Pairwise (fun a b => a.1 < b.1))
    (hok : calculate_passes sats sat_name lat lng obs events = .ok ps) :
    ((ps.map aosTime).Pairwise (· < ·)) ∧
    ∀ p ∈ ps, ∃ a l, p.aos = some a ∧ p.los = some l ∧ a.time < l.time ∧
      ∀ m, p.max = some m → a.time < m.time ∧ m.time < l.time := by
  have hps : ps = groupEvents obs events none := by
    unfold calculate_passes at hok
    by_cases h : sat_name ∈ sats
    · rw [if_pos h] at hok
      injection hok with h'
      exact h'.symm
    · rw [if_neg h] at hok
      cases hok
  subst hps
  obtain ⟨h1, h2, -⟩ := groupEvents_spec obs events none hsorted (by intro cp h; cases h)
  refine ⟨h2, ?_⟩
  intro p hp
  obtain ⟨a, l, ha, hl, hal, -, hm⟩ := h1 p hp
  exact ⟨a, l, ha, hl, hal, hm⟩

theorem calculate_passes_sorted_and_ordered_witness :
    (((groupEvents obsW [((0 : ℚ), (0 : Fin 3)), (30, 1), (60, 2)] none).map
        aosTime).Pairwise (· < ·)) ∧
    ∀ p ∈ groupEvents obsW [((0 : ℚ), (0 : Fin 3)), (30, 1), (60, 2)] none,
      ∃ a l, p.aos = some a ∧ p.los = some l ∧ a.time < l.time ∧
        ∀ m, p.max = some m → a.time < m.time ∧ m.time < l.time :=
  calculate_passes_sorted_and_ordered ["ISS"] "ISS" 0 0 obsW
    [((0 : ℚ), (0 : Fin 3)), (30, 1), (60, 2)] _ (by decide) rfl

/-- C9: the claim says `duration_minutes` equals the LOS-minus-AOS interval in
minutes.  Counterexample: for a rise at t = 0 s and a set at t = 95 s the
interval is 95/60 minutes, but the code stores `round(·, 1)` of it, namely
1.6 = 8/5 minutes. -/
theorem duration_rounded_cex :
    (∃ p, groupEvents obsW [((0 : ℚ), (0 : Fin 3)), (95, 2)] none = [p] ∧
      p.duration_minutes = some (round1 ((95 - 0) / 60))) ∧
    round1 ((95 - 0) / 60) = 8/5 ∧ ((8/5 : ℚ) ≠ (95 - 0) / 60) := by
  refine ⟨⟨_, rfl, rfl⟩, ?_, ?_⟩
  · norm_num [round1, roundHalfEven]
  · norm_num

/-- C9 (amended): every pass returned by `calculate_passes` (on the ordered
stream `find_events` produces) has both an `AOS` and an `LOS` event, the AOS
time is not after the LOS time, and `duration_minutes` is the LOS-minus-AOS
interval in minutes rounded to one decimal place — hence non-negative. -/
theorem calculate_passes_pass_completeness
    (sats : List String) (sat_name : String) (lat lng : ℚ) (obs : ℚ → ℚ × ℚ × ℚ)
    (events : List (ℚ × Fin 3)) (ps : List Pass)
    (hsorted : events.Pairwise (fun a b => a.1 < b.1))
    (hok : calculate_passes sats sat_name lat lng obs events = .ok ps) :
    ∀ p ∈ ps, ∃ a l, p.aos = some a ∧ p.los = some l ∧ a.time ≤ l.time ∧
      p.duration_minutes = some (round1 ((l.time - a.time) / 60)) ∧
      ∀ d, p.duration_minutes = some d → 0 ≤ d := by
  have hps : ps = groupEvents obs events none := by
    unfold calculate_passes at hok
    by_cases h : sat_name ∈ sats
    · rw [if_pos h] at hok
      injection hok with h'
      exact h'.symm
    · rw [if_neg h] at hok
      cases hok
  subst hps
  obtain ⟨h1, -, -⟩ := groupEvents_spec obs events none hsorted (by intro cp h; cases h)
  intro p hp
  obtain ⟨a, l, ha, hl, hal, hd, -⟩ := h1 p hp
  refine ⟨a, l, ha, hl, le_of_lt hal, hd, ?_⟩
  intro d hdd
  rw [hd] at hdd
  injection hdd with h'
  rw [← h']
  exact round1_nonneg (by linarith)

theorem calculate_passes_pass_completeness_witness :
    ∃ a l, (⟨some ⟨0, .AOS, 45, 10, 500⟩, none, some ⟨60, .LOS, 45, 10, 500⟩,
        some (round1 ((60 - 0) / 60)), none⟩ : Pass).aos = some a ∧
      (⟨some ⟨0, .AOS, 45, 10, 500⟩, none, some ⟨60, .LOS, 45, 10, 500⟩,
        some (round1 ((60 - 0) / 60)), none⟩ : Pass).los = some l ∧ a.time ≤ l.time ∧
      (⟨some ⟨0, .AOS, 45, 10, 500⟩, none, some ⟨60, .LOS, 45, 10, 500⟩,
        some (round1 ((60 - 0) / 60)), none⟩ : Pass).duration_minutes =
        some (round1 ((l.time - a.time) / 60)) ∧
      ∀ d, (⟨some ⟨0, .AOS, 45, 10, 500⟩, none, some ⟨60, .LOS, 45, 10, 500⟩,
        some (round1 ((60 - 0) / 60)), none⟩ : Pass).duration_minutes = some d → 0 ≤ d :=
  calculate_passes_pass_completeness ["ISS"] "ISS" 0 0 obsW
    [((0 : ℚ), (0 : Fin 3)), (60, 2)] _ (by decide) rfl _ (List.mem_singleton.mpr rfl)

end PassClaims

section TerminatorClaims

open HamClock HamClock.Astronomy

theorem linspace_getD (a b : ℚ) (n i : ℕ) (h : i < n) :
    (linspace a b n).getD i 0 = a + (b - a) * i / ((n : ℚ) - 1) := by
  unfold linspace
  rw [List.getD_eq_getElem?_getD, List.getElem?_map, List.getElem?_range h]
  rfl

theorem terminator_snd (alt : ℚ → ℚ → ℚ) (n : ℕ) :
    (get_day_night_terminator alt n).map Prod.snd = linspace (-180) 180 n := by
  unfold get_day_night_terminator
  rw [List.map_map]
  have h : (Prod.snd ∘ fun lng : ℚ => (terminatorSearch alt lng 19 (-90) 90, lng)) =
      fun lng : ℚ => lng := rfl
  rw [h, List.map_id']

/-- C5: the spec claims the terminator's sample longitudes span the half-open
interval `[-180°, 180°)`, with `+180°` never a sample.  Counterexample: the
code uses `np.linspace(-180, 180, num_points)` with the default
`endpoint=True`, so for `num_points = 2` the sample longitudes are exactly
`[-180, 180]` and `+180` is a sample. -/
theorem terminator_includes_180_cex :
    (get_day_night_terminator (fun _ _ => 1) 2).map Prod.snd = [-180, 180] ∧
    (180 : ℚ) ∈ (get_day_night_terminator (fun _ _ => 1) 2).map Prod.snd := by
  have h : (get_day_night_terminator (fun _ _ => 1) 2).map Prod.snd = [-180, 180] := by
    rw [terminator_snd]
    norm_num [linspace, List.range_succ]
  exact ⟨h, by rw [h]; exact List.mem_cons_of_mem _ (List.mem_singleton.mpr rfl)⟩

/-- C5 (amended): for every instant (i.e. every external solar-elevation
function) and `num_points ≥ 2`, `get_day_night_terminator` returns exactly
`num_points` samples, one per longitude step, whose longitudes are evenly
spaced across the closed interval `[-180°, 180°]` — the endpoint `+180°` is
the last sample — and strictly increase by the fixed step
`360 / (num_points - 1)` from one sample to the next. -/
theorem get_day_night_terminator_longitudes
    (alt : ℚ → ℚ → ℚ) (n : ℕ) (hn : 2 ≤ n) :
    (get_day_night_terminator alt n).length = n ∧
    (∀ i, i < n → ((get_day_night_terminator alt n).map Prod.snd).getD i 0 =
      -180 + 360 * i / ((n : ℚ) - 1)) ∧
    (∀ i, i + 1 < n →
      ((get_day_night_terminator alt n).map Prod.snd).getD (i + 1) 0 -
        ((get_day_night_terminator alt n).map Prod.snd).getD i 0 = 360 / ((n : ℚ) - 1)) ∧
    0 < 360 / ((n : ℚ) - 1) ∧
    ((get_day_night_terminator alt n).map Prod.snd).getD 0 0 = -180 ∧
    ((get_day_night_terminator alt n).map Prod.snd).getD (n - 1) 0 = 180 := by
  have hge : (2 : ℚ) ≤ (n : ℚ) := by exact_mod_cast hn
  have hpos : (0 : ℚ) < (n : ℚ) - 1 := by linarith
  have hne : ((n : ℚ) - 1) ≠ 0 := ne_of_gt hpos
  have hlen : (get_day_night_terminator alt n).length = n := by
    unfold get_day_night_terminator linspace
    simp
  have hval : ∀ i, i < n → ((get_day_night_terminator alt n).map Prod.snd).getD i 0 =
      -180 + 360 * i / ((n : ℚ) - 1) := by
    intro i hi
    rw [terminator_snd, linspace_getD _ _ _ _ hi]
    norm_num
  refine ⟨hlen, hval, ?_, ?_, ?_, ?_⟩
  · intro i hi
    rw [hval (i + 1) hi, hval i (by omega)]
    push_cast
    field_simp
    ring
  · positivity
  · rw [hval 0 (by omega)]
    norm_num
  · rw [hval (n - 1) (by omega)]
    have hc : ((n - 1 : ℕ) : ℚ) = (n : ℚ) - 1 := by
      push_cast [Nat.cast_sub (by omega : 1 ≤ n)]
      ring
    rw [hc]
    field_simp
    norm_num

theorem get_day_night_terminator_longitudes_witness :
    (get_day_night_terminator (fun _ _ => 1) 3).length = 3 ∧
    (∀ i, i < 3 → ((get_day_night_terminator (fun _ _ => 1) 3).map Prod.snd).getD i 0 =
      -180 + 360 * i / ((3 : ℚ) - 1)) ∧
    (∀ i, i + 1 < 3 →
      ((get_day_night_terminator (fun _ _ => 1) 3).map Prod.snd).getD (i + 1) 0 -
        ((get_day_night_terminator (fun _ _ => 1) 3).map Prod.snd).getD i 0 =
        360 / ((3 : ℚ) - 1)) ∧
    0 < 360 / ((3 : ℚ) - 1) ∧
    ((get_day_night_terminator (fun _ _ => 1) 3).map Prod.snd).getD 0 0 = -180 ∧
    ((get_day_night_terminator (fun _ _ => 1) 3).map Prod.snd).getD (3 - 1) 0 = 180 :=
  get_day_night_terminator_longitudes (fun _ _ => 1) 3 (by decide)

end TerminatorClaims

section ObserverValidationClaims

open HamClock HamClock.Maidenhead HamClock.Satellites

/-- C8: the spec claims every engine operation taking an observer position
rejects out-of-range latitude/longitude before any computation.
Counterexample: `get_satellite_position` and `calculate_passes` accept an
observer latitude of 91° (outside [-90, 90]) and return a normal `.ok`
result — no validation is performed. -/
theorem satellite_ops_accept_invalid_observer_cex :
    (get_satellite_position ["ISS"] "ISS" 91 0 (0, 0, 0)).isOk = true ∧
    (calculate_passes ["ISS"] "ISS" 91 0 obsW []).isOk = true ∧
    ¬((91 : ℚ) ≤ 90) := by
  refine ⟨rfl, rfl, by norm_num⟩

/-- C8 (amended): only the grid-encoding operation validates the observer —
`latlong_to_grid` rejects an out-of-range latitude or longitude with a typed
error before computing — while the satellite operations
(`get_satellite_position`, `calculate_passes`) perform no observer-range
validation and succeed for any observer coordinates. -/
theorem observer_range_validation_split :
    (∀ (lat lon : ℚ) (p : ℕ), (¬(-90 ≤ lat ∧ lat ≤ 90) ∨ ¬(-180 ≤ lon ∧ lon ≤ 180)) →
      ∃ m, latlong_to_grid lat lon p = .error m) ∧
    (∀ (sats : List String) (name : String) (lat lng : ℚ) (topo : ℚ × ℚ × ℚ),
      name ∈ sats → ∃ r, get_satellite_position sats name lat lng topo = .ok r) ∧
    (∀ (sats : List String) (name : String) (lat lng : ℚ) (obs : ℚ → ℚ × ℚ × ℚ)
      (events : List (ℚ × Fin 3)),
      name ∈ sats → ∃ ps, calculate_passes sats name lat lng obs events = .ok ps) := by
  refine ⟨?_, ?_, ?_⟩
  · intro lat lon p h
    unfold latlong_to_grid
    by_cases h1 : -90 ≤ lat ∧ lat ≤ 90
    · have h2 : ¬(-180 ≤ lon ∧ lon ≤ 180) := h.resolve_left (not_not_intro h1)
      rw [if_neg (not_not_intro h1), if_pos h2]
      exact ⟨_, rfl⟩
    · rw [if_pos h1]
      exact ⟨_, rfl⟩
  · intro sats name lat lng topo hmem
    unfold get_satellite_position
    rw [if_pos hmem]
    exact ⟨_, rfl⟩
  · intro sats name lat lng obs events hmem
    unfold calculate_passes
    rw [if_pos hmem]
    exact ⟨_, rfl⟩

theorem observer_range_validation_split_witness :
    (∃ m, latlong_to_grid 91 0 4 = .error m) ∧
    (∃ r, get_satellite_position ["ISS"] "ISS" 91 0 (0, 0, 0) = .ok r) ∧
    (∃ ps, calculate_passes ["ISS"] "ISS" 91 0 obsW [] = .ok ps) :=
  ⟨observer_range_validation_split.1 91 0 4 (Or.inl (by norm_num)),
   observer_range_validation_split.2.1 ["ISS"] "ISS" 91 0 (0, 0, 0) (by decide),
   observer_range_validation_split.2.2 ["ISS"] "ISS" 91 0 obsW [] (by decide)⟩

end ObserverValidationClaims

section GridRangeClaims

open HamClock HamClock.Maidenhead

theorem char_toNat_ofNat {n : ℕ} (h : n < 55296) : (Char.ofNat n).toNat = n := by
  rw [Char.ofNat, dif_pos (Or.inl h)]
  rfl

theorem toUpperChar_eq_self {c : Char} (h : c.toNat < 97) : toUpperChar c = c := by
  rw [toUpperChar, if_neg]
  omega

/-- Evaluation of `grid_to_latlong` on a two-character grid whose characters
are not lowercase letters. -/
theorem grid_to_latlong_pair (c0 c1 : Char) (h0 : c0.toNat < 97) (h1 : c1.toNat < 97) :
    grid_to_latlong [c0, c1] =
      if c0.toNat < 65 ∨ 88 < c0.toNat then .error "Invalid field letter"
      else if c1.toNat < 65 ∨ 82 < c1.toNat then .error "Invalid field letter"
      else .ok ((((c1.toNat : ℚ) - 65) * 10 - 90) + 5,
        (((c0.toNat : ℚ) - 65) * 20 - 180) + 10) := by
  have hmap : [c0, c1].map toUpperChar = [c0, c1] := by
    rw [List.map_cons, List.map_cons, List.map_nil, toUpperChar_eq_self h0,
      toUpperChar_eq_self h1]
  simp only [grid_to_latlong, hmap, List.length_cons, List.length_nil, List.getD_cons_zero,
    List.getD_cons_succ]
  norm_num

/-- Evaluation of `is_valid_grid` on a two-character grid whose characters
are not lowercase letters. -/
theorem is_valid_grid_pair (c0 c1 : Char) (h0 : c0.toNat < 97) (h1 : c1.toNat < 97) :
    is_valid_grid [c0, c1] =
      if c0.toNat < 65 ∨ 88 < c0.toNat then false
      else if c1.toNat < 65 ∨ 82 < c1.toNat then false
      else true := by
  have hmap : [c0, c1].map toUpperChar = [c0, c1] := by
    rw [List.map_cons, List.map_cons, List.map_nil, toUpperChar_eq_self h0,
      toUpperChar_eq_self h1]
  simp only [is_valid_grid, hmap, List.length_cons, List.length_nil, List.getD_cons_zero,
    List.getD_cons_succ]
  norm_num

/-- C10: `is_valid_grid` accepts "XA" and `grid_to_latlong` decodes it without
error to longitude 290 > 180, outside the documented [-180, 180] range;
validation and decoding accept any first-position field letter S..X
(codes 83..88), while `latlong_to_grid` never produces a first letter beyond
'R' (code 82) for an in-range longitude below 180. -/
theorem grid_codec_accepts_beyond_180 :
    (is_valid_grid ['X', 'A'] = true) ∧
    (grid_to_latlong ['X', 'A'] = .ok (-85, 290)) ∧ ((180 : ℚ) < 290) ∧
    (∀ c : Char, 83 ≤ c.toNat → c.toNat ≤ 88 →
      is_valid_grid [c, 'A'] = true ∧ (grid_to_latlong [c, 'A']).isOk = true) ∧
    (∀ (lat lon : ℚ) (p : ℕ) (g : List Char), -90 ≤ lat → lat ≤ 90 →
      -180 ≤ lon → lon < 180 →
      latlong_to_grid lat lon p = .ok g → (g.getD 0 'A').toNat ≤ 82) := by
  refine ⟨by decide, ?_, by norm_num, ?_, ?_⟩
  · rw [grid_to_latlong_pair 'X' 'A' (by decide) (by decide), if_neg (by decide),
      if_neg (by decide)]
    norm_num [show 'X'.toNat = 88 from rfl, show 'A'.toNat = 65 from rfl]
  · intro c h83 h88
    constructor
    · rw [is_valid_grid_pair c 'A' (by omega) (by decide), if_neg (by omega),
        if_neg (by decide)]
    · rw [grid_to_latlong_pair c 'A' (by omega) (by decide), if_neg (by omega),
        if_neg (by decide)]
      rfl
  · intro lat lon p g h1 h2 h3 h4 hok
    unfold latlong_to_grid at hok
    rw [if_neg (not_not_intro ⟨h1, h2⟩), if_neg (not_not_intro ⟨h3, by linarith⟩)] at hok
    by_cases hp : p = 2 ∨ p = 4 ∨ p = 6 ∨ p = 8
    · rw [if_neg (not_not_intro hp)] at hok
      injection hok with hg
      have hlb : (0 : ℤ) ≤ ⌊(lon + 180) / 20⌋ := Int.floor_nonneg.mpr (by linarith)
      have hub : ⌊(lon + 180) / 20⌋ < 18 := Int.floor_lt.mpr (by push_cast; linarith)
      have hk : (⌊(lon + 180) / 20⌋).toNat ≤ 17 := by omega
      rw [← hg]
      simp only [List.cons_append, List.getD_cons_zero]
      rw [char_toNat_ofNat (by omega)]
      omega
    · rw [if_pos hp] at hok
      cases hok

theorem grid_codec_accepts_beyond_180_witness :
    (is_valid_grid ['T', 'A'] = true ∧ (grid_to_latlong ['T', 'A']).isOk = true) ∧
    ((['J', 'J'] : List Char).getD 0 'A').toNat ≤ 82 := by
  refine ⟨grid_codec_accepts_beyond_180.2.2.2.1 'T' (by decide) (by decide), ?_⟩
  refine grid_codec_accepts_beyond_180.2.2.2.2 0 0 2 ['J', 'J'] (by norm_num) (by norm_num)
    (by norm_num) (by norm_num) ?_
  norm_num [latlong_to_grid, pymod]
  decide

end GridRangeClaims

section GridExampleClaims

open HamClock HamClock.Maidenhead

/-- C6: the spec claims `decode("FN30")` is approximately (40.5, -72.0).
Counterexample: `grid_to_latlong "FN30"` returns longitude exactly -73 —
the centre of cell FN30, which spans longitudes [-74, -72) — a full degree
(the whole half-width of the cell) away from the claimed -72, which is the
cell's eastern edge. -/
theorem fn30_decode_longitude_cex :
    grid_to_latlong ['F', 'N', '3', '0'] = .ok (40.5, -73) ∧
    |(-73 : ℚ) - (-72)| = 1 ∧ ¬(|(-73 : ℚ) - (-72)| < 1) := by
  refine ⟨?_, by norm_num, by norm_num⟩
  simp [grid_to_latlong, toUpperChar, isDigitChar, List.getD]
  norm_num

/-- C6 (amended): `latlong_to_grid 40.75 (-73.0) 4 = "FN30"`, and
`grid_to_latlong "FN30"` returns the cell's centre point, exactly
latitude 40.5 and longitude -73.0. -/
theorem maidenhead_example_fn30 :
    latlong_to_grid 40.75 (-73) 4 = .ok ['F', 'N', '3', '0'] ∧
    grid_to_latlong ['F', 'N', '3', '0'] = .ok (40.5, -73) := by
  constructor
  · norm_num [latlong_to_grid, pymod]
    decide
  · simp [grid_to_latlong, toUpperChar, isDigitChar, List.getD]
    norm_num

end GridExampleClaims

section GreatCircleClaims

open HamClock HamClock.Maidenhead

theorem haversine_fwd_azimuth : (haversine_distance_azimuth 0 0 45 90).2 = 45 := by
  simp only [haversine_distance_azimuth]
  have hr0 : radians 0 = 0 := by simp [radians]
  have hr45 : radians 45 = Real.pi / 4 := by rw [radians]; ring
  have hr90 : radians 90 = Real.pi / 2 := by rw [radians]; ring
  rw [hr0, hr45, hr90]
  have hx : Real.sin (Real.pi / 2 - 0) * Real.cos (Real.pi / 4) = Real.cos (Real.pi / 4) := by
    rw [sub_zero, Real.sin_pi_div_two, one_mul]
  have hy : Real.cos 0 * Real.sin (Real.pi / 4) -
      Real.sin 0 * Real.cos (Real.pi / 4) * Real.cos (Real.pi / 2 - 0) =
      Real.sin (Real.pi / 4) := by
    rw [Real.cos_zero, Real.sin_zero, one_mul, zero_mul, zero_mul, sub_zero]
  rw [hx, hy]
  have hsin4 : Real.sin (Real.pi / 4) = Real.sqrt 2 / 2 := Real.sin_pi_div_four
  have hcos4 : Real.cos (Real.pi / 4) = Real.sqrt 2 / 2 := Real.cos_pi_div_four
  have hpos : 0 < Real.sin (Real.pi / 4) := by
    rw [hsin4]; positivity
  have hat : atan2 (Real.cos (Real.pi / 4)) (Real.sin (Real.pi / 4)) = Real.pi / 4 := by
    rw [atan2, if_pos hpos, hcos4, hsin4, div_self (by positivity : Real.sqrt 2 / 2 ≠ 0),
      Real.arctan_one]
  rw [hat]
  have hdeg : degrees (Real.pi / 4) = 45 := by
    rw [degrees]
    field_simp
    ring
  rw [hdeg, pymodR]
  norm_num

theorem haversine_rev_azimuth : (haversine_distance_azimuth 45 90 0 0).2 = 270 := by
  simp only [haversine_distance_azimuth]
  have hr0 : radians 0 = 0 := by simp [radians]
  have hr45 : radians 45 = Real.pi / 4 := by rw [radians]; ring
  have hr90 : radians 90 = Real.pi / 2 := by rw [radians]; ring
  rw [hr0, hr45, hr90]
  have hx : Real.sin (0 - Real.pi / 2) * Real.cos 0 = -1 := by
    rw [zero_sub, Real.sin_neg, Real.sin_pi_div_two, Real.cos_zero, mul_one]
  have hy : Real.cos (Real.pi / 4) * Real.sin 0 -
      Real.sin (Real.pi / 4) * Real.cos 0 * Real.cos (0 - Real.pi / 2) = 0 := by
    simp
  rw [hx, hy]
  have hat : atan2 (-1) 0 = -(Real.pi / 2) := by
    rw [atan2]
    rw [if_neg (by norm_num), if_neg (by norm_num), if_neg (by norm_num),
      if_neg (by norm_num), if_pos (by norm_num)]
  rw [hat]
  have hdeg : degrees (-(Real.pi / 2)) = -90 := by
    rw [degrees]
    field_simp
    ring
  rw [hdeg, pymodR]
  norm_num

/-- C7: the spec claims `bearing(A,B)` equals `(bearing(B,A) + 180) mod 360`
within 1e-6 degrees for all points.  Counterexample: for A = (0°, 0°) and
B = (45°, 90°) the code computes `bearing(A,B) = 45°` but
`bearing(B,A) = 270°`, whose back-azimuth is 90° — they differ by 45
degrees, far outside any floating tolerance. -/
theorem bearing_back_azimuth_cex :
    (haversine_distance_azimuth 0 0 45 90).2 = 45 ∧
    (haversine_distance_azimuth 45 90 0 0).2 = 270 ∧
    ¬(|(haversine_distance_azimuth 0 0 45 90).2 -
        pymodR ((haversine_distance_azimuth 45 90 0 0).2 + 180) 360| ≤ 1 / 1000000) := by
  refine ⟨haversine_fwd_azimuth, haversine_rev_azimuth, ?_⟩
  rw [haversine_fwd_azimuth, haversine_rev_azimuth, pymodR]
  norm_num

/-- C7 (amended): the great-circle distance is exactly symmetric —
`distance(A,B) = distance(B,A)` for all points A, B (the haversine formula is
commutative term by term).  The claimed back-azimuth relation for bearings
does not hold in general and is dropped. -/
theorem haversine_distance_symm (lat1 lon1 lat2 lon2 : ℝ) :
    (haversine_distance_azimuth lat1 lon1 lat2 lon2).1 =
    (haversine_distance_azimuth lat2 lon2 lat1 lon1).1 := by
  simp only [haversine_distance_azimuth]
  have hs : ∀ a b : ℝ, Real.sin ((a - b) / 2) ^ 2 = Real.sin ((b - a) / 2) ^ 2 := by
    intro a b
    rw [show (a - b) / 2 = -((b - a) / 2) by ring, Real.sin_neg]
    ring
  rw [hs (radians lat2) (radians lat1), hs (radians lon2) (radians lon1),
    mul_comm (Real.cos (radians lat1)) (Real.cos (radians lat2))]

end GreatCircleClaims

section RoundTripClaims

open HamClock HamClock.Maidenhead

theorem pymod_nonneg (a : ℚ) {b : ℚ} (hb : 0 < b) : 0 ≤ pymod a b := by
  have h1 : ((⌊a / b⌋ : ℚ)) ≤ a / b := Int.floor_le _
  have h1' : (⌊a / b⌋ : ℚ) * b ≤ a := (le_div_iff hb).mp h1
  unfold pymod
  linarith [h1']

theorem pymod_lt (a : ℚ) {b : ℚ} (hb : 0 < b) : pymod a b < b := by
  have h2 : a / b < ⌊a / b⌋ + 1 := Int.lt_floor_add_one _
  have h2' : a < ((⌊a / b⌋ : ℚ) + 1) * b := (div_lt_iff hb).mp h2
  unfold pymod
  nlinarith [h2']

theorem floor_toNat_lt {y : ℚ} {k : ℕ} (h0 : 0 ≤ y) (h1 : y < k) : (⌊y⌋).toNat < k := by
  have ha : 0 ≤ ⌊y⌋ := Int.floor_nonneg.mpr h0
  have hb : ⌊y⌋ < (k : ℤ) := Int.floor_lt.mpr (by exact_mod_cast h1)
  omega

theorem floor_toNat_cast {y : ℚ} (h0 : 0 ≤ y) : (((⌊y⌋).toNat : ℕ) : ℚ) = (⌊y⌋ : ℚ) := by
  have ha : 0 ≤ ⌊y⌋ := Int.floor_nonneg.mpr h0
  exact_mod_cast Int.toNat_of_nonneg ha

theorem toDigits_single {d : ℕ} (hd : d ≤ 9) : Nat.toDigits 10 d = [Char.ofNat (48 + d)] := by
  interval_cases d <;> decide

/-- Square digit as a floor difference: `int((x % 20) / 2)`. -/
theorem floor_pymod_20_2 (x : ℚ) : ⌊pymod x 20 / 2⌋ = ⌊x / 2⌋ - 10 * ⌊x / 20⌋ := by
  have h : pymod x 20 / 2 = x / 2 - ((10 * ⌊x / 20⌋ : ℤ) : ℚ) := by
    unfold pymod; push_cast; ring
  rw [h, Int.floor_sub_int]

/-- Square digit as a floor difference: `int((x % 10) / 1)`. -/
theorem floor_pymod_10_1 (x : ℚ) : ⌊pymod x 10 / 1⌋ = ⌊x⌋ - 10 * ⌊x / 10⌋ := by
  have h : pymod x 10 / 1 = x - ((10 * ⌊x / 10⌋ : ℤ) : ℚ) := by
    unfold pymod; push_cast; ring
  rw [h, Int.floor_sub_int]

/-- Subsquare index as a floor difference: `int(((x % 2) / 2) * 24)`. -/
theorem floor_pymod_2_24 (x : ℚ) : ⌊pymod x 2 / 2 * 24⌋ = ⌊12 * x⌋ - 24 * ⌊x / 2⌋ := by
  have h : pymod x 2 / 2 * 24 = 12 * x - ((24 * ⌊x / 2⌋ : ℤ) : ℚ) := by
    unfold pymod; push_cast; ring
  rw [h, Int.floor_sub_int]

/-- Subsquare index as a floor difference: `int(((x % 1) / 1) * 24)`. -/
theorem floor_pymod_1_24 (x : ℚ) : ⌊pymod x 1 / 1 * 24⌋ = ⌊24 * x⌋ - 24 * ⌊x⌋ := by
  have h : pymod x 1 / 1 * 24 = 24 * x - ((24 * ⌊x⌋ : ℤ) : ℚ) := by
    unfold pymod; push_cast; ring
  rw [h, Int.floor_sub_int]

/-- Extended digit as a floor difference: `int((((x % 2) / 2 * 24) % 1) * 10)`. -/
theorem floor_pymod_ext_lon (x : ℚ) :
    ⌊pymod (pymod x 2 / 2 * 24) 1 * 10⌋ = ⌊120 * x⌋ - 10 * ⌊12 * x⌋ := by
  have hE : pymod x 2 / 2 * 24 = 12 * x - ((24 * ⌊x / 2⌋ : ℤ) : ℚ) := by
    unfold pymod; push_cast; ring
  have hP : pymod (pymod x 2 / 2 * 24) 1 = 12 * x - ((⌊12 * x⌋ : ℤ) : ℚ) := by
    rw [pymod, div_one, floor_pymod_2_24 x, hE]
    push_cast
    ring
  have h : pymod (pymod x 2 / 2 * 24) 1 * 10 = 120 * x - ((10 * ⌊12 * x⌋ : ℤ) : ℚ) := by
    rw [hP]; push_cast; ring
  rw [h, Int.floor_sub_int]

/-- Extended digit as a floor difference: `int((((x % 1) / 1 * 24) % 1) * 10)`. -/
theorem floor_pymod_ext_lat (x : ℚ) :
    ⌊pymod (pymod x 1 / 1 * 24) 1 * 10⌋ = ⌊240 * x⌋ - 10 * ⌊24 * x⌋ := by
  have hE : pymod x 1 / 1 * 24 = 24 * x - ((24 * ⌊x⌋ : ℤ) : ℚ) := by
    unfold pymod; push_cast; ring
  have hP : pymod (pymod x 1 / 1 * 24) 1 = 24 * x - ((⌊24 * x⌋ : ℤ) : ℚ) := by
    rw [pymod, div_one (pymod x 1 / 1 * 24), floor_pymod_1_24 x, hE]
    push_cast
    ring
  have h : pymod (pymod x 1 / 1 * 24) 1 * 10 = 240 * x - ((10 * ⌊24 * x⌋ : ℤ) : ℚ) := by
    rw [hP]; push_cast; ring
  rw [h, Int.floor_sub_int]

end RoundTripClaims

section RoundTripDecode

open HamClock HamClock.Maidenhead

theorem grid_to_latlong_encode2 (i1 i2 : ℕ) (h1 : i1 ≤ 23) (h2 : i2 ≤ 17) :
    grid_to_latlong [Char.ofNat (65 + i1), Char.ofNat (65 + i2)] =
    .ok ((i2 : ℚ) * 10 - 90 + 5, (i1 : ℚ) * 20 - 180 + 10) := by
  have t0 : (Char.ofNat (65 + i1)).toNat = 65 + i1 := char_toNat_ofNat (by omega)
  have t1 : (Char.ofNat (65 + i2)).toNat = 65 + i2 := char_toNat_ofNat (by omega)
  rw [grid_to_latlong_pair _ _ (by rw [t0]; omega) (by rw [t1]; omega), t0, t1]
  rw [if_neg (by omega), if_neg (by omega)]
  push_cast
  norm_num

theorem grid_to_latlong_encode4 (i1 i2 d1 d2 : ℕ)
    (h1 : i1 ≤ 23) (h2 : i2 ≤ 17) (h3 : d1 ≤ 9) (h4 : d2 ≤ 9) :
    grid_to_latlong [Char.ofNat (65 + i1), Char.ofNat (65 + i2), Char.ofNat (48 + d1),
      Char.ofNat (48 + d2)] =
    .ok ((i2 : ℚ) * 10 - 90 + d2 + 1/2, (i1 : ℚ) * 20 - 180 + d1 * 2 + 1) := by
  have t0 : (Char.ofNat (65 + i1)).toNat = 65 + i1 := char_toNat_ofNat (by omega)
  have t1 : (Char.ofNat (65 + i2)).toNat = 65 + i2 := char_toNat_ofNat (by omega)
  have t2 : (Char.ofNat (48 + d1)).toNat = 48 + d1 := char_toNat_ofNat (by omega)
  have t3 : (Char.ofNat (48 + d2)).toNat = 48 + d2 := char_toNat_ofNat (by omega)
  have hmap : [Char.ofNat (65 + i1), Char.ofNat (65 + i2), Char.ofNat (48 + d1),
      Char.ofNat (48 + d2)].map toUpperChar = [Char.ofNat (65 + i1), Char.ofNat (65 + i2),
      Char.ofNat (48 + d1), Char.ofNat (48 + d2)] := by
    simp only [List.map_cons, List.map_nil,
      toUpperChar_eq_self (by rw [t0]; omega), toUpperChar_eq_self (by rw [t1]; omega),
      toUpperChar_eq_self (by rw [t2]; omega), toUpperChar_eq_self (by rw [t3]; omega)]
  simp only [grid_to_latlong, hmap, List.length_cons, List.length_nil, List.getD_cons_zero,
    List.getD_cons_succ, t0, t1, t2, t3, isDigitChar]
  rw [if_neg (by norm_num)]
  rw [if_neg (by omega)]
  rw [if_neg (by omega)]
  rw [if_pos (by norm_num)]
  rw [if_neg (not_not_intro ⟨by simp; omega, by simp; omega⟩)]
  rw [if_neg (by norm_num)]
  norm_num

theorem grid_to_latlong_encode6 (i1 i2 d1 d2 s1 s2 : ℕ)
    (h1 : i1 ≤ 23) (h2 : i2 ≤ 17) (h3 : d1 ≤ 9) (h4 : d2 ≤ 9) (h5 : s1 ≤ 23) (h6 : s2 ≤ 23) :
    grid_to_latlong [Char.ofNat (65 + i1), Char.ofNat (65 + i2), Char.ofNat (48 + d1),
      Char.ofNat (48 + d2), Char.ofNat (65 + s1), Char.ofNat (65 + s2)] =
    .ok ((i2 : ℚ) * 10 - 90 + d2 + (s2 : ℚ) / 24 + 1/48,
         (i1 : ℚ) * 20 - 180 + d1 * 2 + (s1 : ℚ) / 12 + 1/24) := by
  have t0 : (Char.ofNat (65 + i1)).toNat = 65 + i1 := char_toNat_ofNat (by omega)
  have t1 : (Char.ofNat (65 + i2)).toNat = 65 + i2 := char_toNat_ofNat (by omega)
  have t2 : (Char.ofNat (48 + d1)).toNat = 48 + d1 := char_toNat_ofNat (by omega)
  have t3 : (Char.ofNat (48 + d2)).toNat = 48 + d2 := char_toNat_ofNat (by omega)
  have t4 : (Char.ofNat (65 + s1)).toNat = 65 + s1 := char_toNat_ofNat (by omega)
  have t5 : (Char.ofNat (65 + s2)).toNat = 65 + s2 := char_toNat_ofNat (by omega)
  have hmap : [Char.ofNat (65 + i1), Char.ofNat (65 + i2), Char.ofNat (48 + d1),
      Char.ofNat (48 + d2), Char.ofNat (65 + s1), Char.ofNat (65 + s2)].map toUpperChar =
      [Char.ofNat (65 + i1), Char.ofNat (65 + i2), Char.ofNat (48 + d1), Char.ofNat (48 + d2),
      Char.ofNat (65 + s1), Char.ofNat (65 + s2)] := by
    simp only [List.map_cons, List.map_nil,
      toUpperChar_eq_self (by rw [t0]; omega), toUpperChar_eq_self (by rw [t1]; omega),
      toUpperChar_eq_self (by rw [t2]; omega), toUpperChar_eq_self (by rw [t3]; omega),
      toUpperChar_eq_self (by rw [t4]; omega), toUpperChar_eq_self (by rw [t5]; omega)]
  simp only [grid_to_latlong, hmap, List.length_cons, List.length_nil, List.getD_cons_zero,
    List.getD_cons_succ, t0, t1, t2, t3, t4, t5, isDigitChar]
  rw [if_neg (by norm_num)]
  rw [if_neg (by omega)]
  rw [if_neg (by omega)]
  rw [if_pos (by norm_num)]
  rw [if_neg (not_not_intro ⟨by simp; omega, by simp; omega⟩)]
  rw [if_pos (by norm_num)]
  rw [if_neg (by omega)]
  rw [if_neg (by omega)]
  rw [if_neg (by norm_num)]
  norm_num

theorem grid_to_latlong_encode8 (i1 i2 d1 d2 s1 s2 e1 e2 : ℕ)
    (h1 : i1 ≤ 23) (h2 : i2 ≤ 17) (h3 : d1 ≤ 9) (h4 : d2 ≤ 9) (h5 : s1 ≤ 23) (h6 : s2 ≤ 23)
    (h7 : e1 ≤ 9) (h8 : e2 ≤ 9) :
    grid_to_latlong [Char.ofNat (65 + i1), Char.ofNat (65 + i2), Char.ofNat (48 + d1),
      Char.ofNat (48 + d2), Char.ofNat (65 + s1), Char.ofNat (65 + s2), Char.ofNat (48 + e1),
      Char.ofNat (48 + e2)] =
    .ok ((i2 : ℚ) * 10 - 90 + d2 + (s2 : ℚ) / 24 + (e2 : ℚ) / 240 + 1/480,
         (i1 : ℚ) * 20 - 180 + d1 * 2 + (s1 : ℚ) / 12 + (e1 : ℚ) / 120 + 1/240) := by
  have t0 : (Char.ofNat (65 + i1)).toNat = 65 + i1 := char_toNat_ofNat (by omega)
  have t1 : (Char.ofNat (65 + i2)).toNat = 65 + i2 := char_toNat_ofNat (by omega)
  have t2 : (Char.ofNat (48 + d1)).toNat = 48 + d1 := char_toNat_ofNat (by omega)
  have t3 : (Char.ofNat (48 + d2)).toNat = 48 + d2 := char_toNat_ofNat (by omega)
  have t4 : (Char.ofNat (65 + s1)).toNat = 65 + s1 := char_toNat_ofNat (by omega)
  have t5 : (Char.ofNat (65 + s2)).toNat = 65 + s2 := char_toNat_ofNat (by omega)
  have t6 : (Char.ofNat (48 + e1)).toNat = 48 + e1 := char_toNat_ofNat (by omega)
  have t7 : (Char.ofNat (48 + e2)).toNat = 48 + e2 := char_toNat_ofNat (by omega)
  have hmap : [Char.ofNat (65 + i1), Char.ofNat (65 + i2), Char.ofNat (48 + d1),
      Char.ofNat (48 + d2), Char.ofNat (65 + s1), Char.ofNat (65 + s2), Char.ofNat (48 + e1),
      Char.ofNat (48 + e2)].map toUpperChar = [Char.ofNat (65 + i1), Char.ofNat (65 + i2),
      Char.ofNat (48 + d1), Char.ofNat (48 + d2), Char.ofNat (65 + s1), Char.ofNat (65 + s2),
      Char.ofNat (48 + e1), Char.ofNat (48 + e2)] := by
    simp only [List.map_cons, List.map_nil,
      toUpperChar_eq_self (by rw [t0]; omega), toUpperChar_eq_self (by rw [t1]; omega),
      toUpperChar_eq_self (by rw [t2]; omega), toUpperChar_eq_self (by rw [t3]; omega),
      toUpperChar_eq_self (by rw [t4]; omega), toUpperChar_eq_self (by rw [t5]; omega),
      toUpperChar_eq_self (by rw [t6]; omega), toUpperChar_eq_self (by rw [t7]; omega)]
  simp only [grid_to_latlong, hmap, List.length_cons, List.length_nil, List.getD_cons_zero,
    List.getD_cons_succ, t0, t1, t2, t3, t4, t5, t6, t7, isDigitChar]
  rw [if_neg (by norm_num)]
  rw [if_neg (by omega)]
  rw [if_neg (by omega)]
  rw [if_pos (by norm_num)]
  rw [if_neg (not_not_intro ⟨by simp; omega, by simp; omega⟩)]
  rw [if_pos (by norm_num)]
  rw [if_neg (by omega)]
  rw [if_neg (by omega)]
  rw [if_pos (by norm_num)]
  rw [if_neg (not_not_intro ⟨by simp; omega, by simp; omega⟩)]
  norm_num

end RoundTripDecode

section RoundTripEncode

open HamClock HamClock.Maidenhead

theorem latlong_to_grid_2 (lat lon : ℚ)
    (h1 : -90 ≤ lat) (h2 : lat ≤ 90) (h3 : -180 ≤ lon) (h4 : lon ≤ 180) :
    latlong_to_grid lat lon 2 = .ok
      [Char.ofNat (65 + (⌊(lon + 180) / 20⌋).toNat),
       Char.ofNat (65 + (⌊(lat + 90) / 10⌋).toNat)] := by
  unfold latlong_to_grid
  rw [if_neg (not_not_intro ⟨h1, h2⟩), if_neg (not_not_intro ⟨h3, h4⟩),
    if_neg (not_not_intro (by norm_num))]
  norm_num

theorem latlong_to_grid_4 (lat lon : ℚ)
    (h1 : -90 ≤ lat) (h2 : lat ≤ 90) (h3 : -180 ≤ lon) (h4 : lon ≤ 180) :
    latlong_to_grid lat lon 4 = .ok
      [Char.ofNat (65 + (⌊(lon + 180) / 20⌋).toNat),
       Char.ofNat (65 + (⌊(lat + 90) / 10⌋).toNat),
       Char.ofNat (48 + (⌊pymod (lon + 180) 20 / 2⌋).toNat),
       Char.ofNat (48 + (⌊pymod (lat + 90) 10 / 1⌋).toNat)] := by
  have hd1 : (⌊pymod (lon + 180) 20 / 2⌋).toNat ≤ 9 := by
    have hb := pymod_lt (lon + 180) (by norm_num : (0:ℚ) < 20)
    have ha := pymod_nonneg (lon + 180) (by norm_num : (0:ℚ) < 20)
    have := floor_toNat_lt (k := 10) (y := pymod (lon + 180) 20 / 2)
      (by linarith) (by push_cast; linarith)
    omega
  have hd2 : (⌊pymod (lat + 90) 10⌋).toNat ≤ 9 := by
    have hb := pymod_lt (lat + 90) (by norm_num : (0:ℚ) < 10)
    have ha := pymod_nonneg (lat + 90) (by norm_num : (0:ℚ) < 10)
    have := floor_toNat_lt (k := 10) (y := pymod (lat + 90) 10)
      (by linarith) (by push_cast; linarith)
    omega
  unfold latlong_to_grid
  rw [if_neg (not_not_intro ⟨h1, h2⟩), if_neg (not_not_intro ⟨h3, h4⟩),
    if_neg (not_not_intro (by norm_num))]
  norm_num [toDigits_single hd1, toDigits_single hd2]

theorem latlong_to_grid_6 (lat lon : ℚ)
    (h1 : -90 ≤ lat) (h2 : lat ≤ 90) (h3 : -180 ≤ lon) (h4 : lon ≤ 180) :
    latlong_to_grid lat lon 6 = .ok
      [Char.ofNat (65 + (⌊(lon + 180) / 20⌋).toNat),
       Char.ofNat (65 + (⌊(lat + 90) / 10⌋).toNat),
       Char.ofNat (48 + (⌊pymod (lon + 180) 20 / 2⌋).toNat),
       Char.ofNat (48 + (⌊pymod (lat + 90) 10 / 1⌋).toNat),
       Char.ofNat (65 + (⌊pymod (lon + 180) 2 / 2 * 24⌋).toNat),
       Char.ofNat (65 + (⌊pymod (lat + 90) 1 / 1 * 24⌋).toNat)] := by
  have hd1 : (⌊pymod (lon + 180) 20 / 2⌋).toNat ≤ 9 := by
    have hb := pymod_lt (lon + 180) (by norm_num : (0:ℚ) < 20)
    have ha := pymod_nonneg (lon + 180) (by norm_num : (0:ℚ) < 20)
    have := floor_toNat_lt (k := 10) (y := pymod (lon + 180) 20 / 2)
      (by linarith) (by push_cast; linarith)
    omega
  have hd2 : (⌊pymod (lat + 90) 10⌋).toNat ≤ 9 := by
    have hb := pymod_lt (lat + 90) (by norm_num : (0:ℚ) < 10)
    have ha := pymod_nonneg (lat + 90) (by norm_num : (0:ℚ) < 10)
    have := floor_toNat_lt (k := 10) (y := pymod (lat + 90) 10)
      (by linarith) (by push_cast; linarith)
    omega
  unfold latlong_to_grid
  rw [if_neg (not_not_intro ⟨h1, h2⟩), if_neg (not_not_intro ⟨h3, h4⟩),
    if_neg (not_not_intro (by norm_num))]
  norm_num [toDigits_single hd1, toDigits_single hd2]

theorem latlong_to_grid_8 (lat lon : ℚ)
    (h1 : -90 ≤ lat) (h2 : lat ≤ 90) (h3 : -180 ≤ lon) (h4 : lon ≤ 180) :
    latlong_to_grid lat lon 8 = .ok
      [Char.ofNat (65 + (⌊(lon + 180) / 20⌋).toNat),
       Char.ofNat (65 + (⌊(lat + 90) / 10⌋).toNat),
       Char.ofNat (48 + (⌊pymod (lon + 180) 20 / 2⌋).toNat),
       Char.ofNat (48 + (⌊pymod (lat + 90) 10 / 1⌋).toNat),
       Char.ofNat (65 + (⌊pymod (lon + 180) 2 / 2 * 24⌋).toNat),
       Char.ofNat (65 + (⌊pymod (lat + 90) 1 / 1 * 24⌋).toNat),
       Char.ofNat (48 + (⌊pymod (pymod (lon + 180) 2 / 2 * 24) 1 * 10⌋).toNat),
       Char.ofNat (48 + (⌊pymod (pymod (lat + 90) 1 / 1 * 24) 1 * 10⌋).toNat)] := by
  have hd1 : (⌊pymod (lon + 180) 20 / 2⌋).toNat ≤ 9 := by
    have hb := pymod_lt (lon + 180) (by norm_num : (0:ℚ) < 20)
    have ha := pymod_nonneg (lon + 180) (by norm_num : (0:ℚ) < 20)
    have := floor_toNat_lt (k := 10) (y := pymod (lon + 180) 20 / 2)
      (by linarith) (by push_cast; linarith)
    omega
  have hd2 : (⌊pymod (lat + 90) 10⌋).toNat ≤ 9 := by
    have hb := pymod_lt (lat + 90) (by norm_num : (0:ℚ) < 10)
    have ha := pymod_nonneg (lat + 90) (by norm_num : (0:ℚ) < 10)
    have := floor_toNat_lt (k := 10) (y := pymod (lat + 90) 10)
      (by linarith) (by push_cast; linarith)
    omega
  have he1 : (⌊pymod (pymod (lon + 180) 2 / 2 * 24) 1 * 10⌋).toNat ≤ 9 := by
    have hb := pymod_lt (pymod (lon + 180) 2 / 2 * 24) (by norm_num : (0:ℚ) < 1)
    have ha := pymod_nonneg (pymod (lon + 180) 2 / 2 * 24) (by norm_num : (0:ℚ) < 1)
    have := floor_toNat_lt (k := 10) (y := pymod (pymod (lon + 180) 2 / 2 * 24) 1 * 10)
      (by linarith) (by push_cast; linarith)
    omega
  have he2 : (⌊pymod (pymod (lat + 90) 1 * 24) 1 * 10⌋).toNat ≤ 9 := by
    have hb := pymod_lt (pymod (lat + 90) 1 * 24) (by norm_num : (0:ℚ) < 1)
    have ha := pymod_nonneg (pymod (lat + 90) 1 * 24) (by norm_num : (0:ℚ) < 1)
    have := floor_toNat_lt (k := 10) (y := pymod (pymod (lat + 90) 1 * 24) 1 * 10)
      (by linarith) (by push_cast; linarith)
    omega
  unfold latlong_to_grid
  rw [if_neg (not_not_intro ⟨h1, h2⟩), if_neg (not_not_intro ⟨h3, h4⟩),
    if_neg (not_not_intro (by norm_num))]
  norm_num [toDigits_single hd1, toDigits_single hd2, toDigits_single he1,
    toDigits_single he2]

end RoundTripEncode

section RoundTripMain

open HamClock HamClock.Maidenhead

theorem maidenhead_roundtrip_2 (lat lon : ℚ)
    (h1 : -90 ≤ lat) (h2 : lat < 90) (h3 : -180 ≤ lon) (h4 : lon ≤ 180) :
    ∃ g la lo, latlong_to_grid lat lon 2 = .ok g ∧ grid_to_latlong g = .ok (la, lo) ∧
      |la - lat| ≤ 5 ∧ |lo - lon| ≤ 10 := by
  have hi1 : (⌊(lon + 180) / 20⌋).toNat ≤ 23 := by
    have := floor_toNat_lt (k := 19) (y := (lon + 180) / 20)
      (by linarith) (by push_cast; linarith)
    omega
  have hi2 : (⌊(lat + 90) / 10⌋).toNat ≤ 17 := by
    have := floor_toNat_lt (k := 18) (y := (lat + 90) / 10)
      (by linarith) (by push_cast; linarith)
    omega
  refine ⟨_, _, _, latlong_to_grid_2 lat lon h1 (le_of_lt h2) h3 h4,
    grid_to_latlong_encode2 _ _ hi1 hi2, ?_, ?_⟩
  · rw [floor_toNat_cast (by linarith : (0:ℚ) ≤ (lat + 90) / 10)]
    have hf1 : ((⌊(lat + 90) / 10⌋ : ℤ) : ℚ) ≤ (lat + 90) / 10 := Int.floor_le _
    have hf2 : (lat + 90) / 10 < ⌊(lat + 90) / 10⌋ + 1 := Int.lt_floor_add_one _
    rw [abs_le]
    constructor <;> linarith
  · rw [floor_toNat_cast (by linarith : (0:ℚ) ≤ (lon + 180) / 20)]
    have hf1 : ((⌊(lon + 180) / 20⌋ : ℤ) : ℚ) ≤ (lon + 180) / 20 := Int.floor_le _
    have hf2 : (lon + 180) / 20 < ⌊(lon + 180) / 20⌋ + 1 := Int.lt_floor_add_one _
    rw [abs_le]
    constructor <;> linarith

theorem maidenhead_roundtrip_4 (lat lon : ℚ)
    (h1 : -90 ≤ lat) (h2 : lat < 90) (h3 : -180 ≤ lon) (h4 : lon ≤ 180) :
    ∃ g la lo, latlong_to_grid lat lon 4 = .ok g ∧ grid_to_latlong g = .ok (la, lo) ∧
      |la - lat| ≤ 1/2 ∧ |lo - lon| ≤ 1 := by
  have hi1 : (⌊(lon + 180) / 20⌋).toNat ≤ 23 := by
    have := floor_toNat_lt (k := 19) (y := (lon + 180) / 20)
      (by linarith) (by push_cast; linarith)
    omega
  have hi2 : (⌊(lat + 90) / 10⌋).toNat ≤ 17 := by
    have := floor_toNat_lt (k := 18) (y := (lat + 90) / 10)
      (by linarith) (by push_cast; linarith)
    omega
  have hmlon := pymod_nonneg (lon + 180) (by norm_num : (0:ℚ) < 20)
  have hmlon2 := pymod_lt (lon + 180) (by norm_num : (0:ℚ) < 20)
  have hmlat := pymod_nonneg (lat + 90) (by norm_num : (0:ℚ) < 10)
  have hmlat2 := pymod_lt (lat + 90) (by norm_num : (0:ℚ) < 10)
  have hd1 : (⌊pymod (lon + 180) 20 / 2⌋).toNat ≤ 9 := by
    have := floor_toNat_lt (k := 10) (y := pymod (lon + 180) 20 / 2)
      (by linarith) (by push_cast; linarith)
    omega
  have hd2 : (⌊pymod (lat + 90) 10 / 1⌋).toNat ≤ 9 := by
    have := floor_toNat_lt (k := 10) (y := pymod (lat + 90) 10 / 1)
      (by rw [div_one]; linarith) (by rw [div_one]; push_cast; linarith)
    omega
  refine ⟨_, _, _, latlong_to_grid_4 lat lon h1 (le_of_lt h2) h3 h4,
    grid_to_latlong_encode4 _ _ _ _ hi1 hi2 hd1 hd2, ?_, ?_⟩
  · rw [floor_toNat_cast (by linarith : (0:ℚ) ≤ (lat + 90) / 10),
      floor_toNat_cast (by rw [div_one]; linarith : (0:ℚ) ≤ pymod (lat + 90) 10 / 1),
      floor_pymod_10_1 (lat + 90)]
    have hf1 : ((⌊lat + 90⌋ : ℤ) : ℚ) ≤ lat + 90 := Int.floor_le _
    have hf2 : lat + 90 < ⌊lat + 90⌋ + 1 := Int.lt_floor_add_one _
    push_cast
    rw [abs_le]
    constructor <;> linarith
  · rw [floor_toNat_cast (by linarith : (0:ℚ) ≤ (lon + 180) / 20),
      floor_toNat_cast (by linarith : (0:ℚ) ≤ pymod (lon + 180) 20 / 2),
      floor_pymod_20_2 (lon + 180)]
    have hf1 : ((⌊(lon + 180) / 2⌋ : ℤ) : ℚ) ≤ (lon + 180) / 2 := Int.floor_le _
    have hf2 : (lon + 180) / 2 < ⌊(lon + 180) / 2⌋ + 1 := Int.lt_floor_add_one _
    push_cast
    rw [abs_le]
    constructor <;> linarith

theorem maidenhead_roundtrip_6 (lat lon : ℚ)
    (h1 : -90 ≤ lat) (h2 : lat < 90) (h3 : -180 ≤ lon) (h4 : lon ≤ 180) :
    ∃ g la lo, latlong_to_grid lat lon 6 = .ok g ∧ grid_to_latlong g = .ok (la, lo) ∧
      |la - lat| ≤ 1/48 ∧ |lo - lon| ≤ 1/24 := by
  have hi1 : (⌊(lon + 180) / 20⌋).toNat ≤ 23 := by
    have := floor_toNat_lt (k := 19) (y := (lon + 180) / 20)
      (by linarith) (by push_cast; linarith)
    omega
  have hi2 : (⌊(lat + 90) / 10⌋).toNat ≤ 17 := by
    have := floor_toNat_lt (k := 18) (y := (lat + 90) / 10)
      (by linarith) (by push_cast; linarith)
    omega
  have hmlon := pymod_nonneg (lon + 180) (by norm_num : (0:ℚ) < 20)
  have hmlon2 := pymod_lt (lon + 180) (by norm_num : (0:ℚ) < 20)
  have hmlat := pymod_nonneg (lat + 90) (by norm_num : (0:ℚ) < 10)
  have hmlat2 := pymod_lt (lat + 90) (by norm_num : (0:ℚ) < 10)
  have hm2lon := pymod_nonneg (lon + 180) (by norm_num : (0:ℚ) < 2)
  have hm2lon2 := pymod_lt (lon + 180) (by norm_num : (0:ℚ) < 2)
  have hm1lat := pymod_nonneg (lat + 90) (by norm_num : (0:ℚ) < 1)
  have hm1lat2 := pymod_lt (lat + 90) (by norm_num : (0:ℚ) < 1)
  have hd1 : (⌊pymod (lon + 180) 20 / 2⌋).toNat ≤ 9 := by
    have := floor_toNat_lt (k := 10) (y := pymod (lon + 180) 20 / 2)
      (by linarith) (by push_cast; linarith)
    omega
  have hd2 : (⌊pymod (lat + 90) 10 / 1⌋).toNat ≤ 9 := by
    have := floor_toNat_lt (k := 10) (y := pymod (lat + 90) 10 / 1)
      (by rw [div_one]; linarith) (by rw [div_one]; push_cast; linarith)
    omega
  have hs1 : (⌊pymod (lon + 180) 2 / 2 * 24⌋).toNat ≤ 23 := by
    have := floor_toNat_lt (k := 24) (y := pymod (lon + 180) 2 / 2 * 24)
      (by linarith) (by push_cast; linarith)
    omega
  have hs2 : (⌊pymod (lat + 90) 1 / 1 * 24⌋).toNat ≤ 23 := by
    have := floor_toNat_lt (k := 24) (y := pymod (lat + 90) 1 / 1 * 24)
      (by rw [div_one]; linarith) (by rw [div_one]; push_cast; linarith)
    omega
  refine ⟨_, _, _, latlong_to_grid_6 lat lon h1 (le_of_lt h2) h3 h4,
    grid_to_latlong_encode6 _ _ _ _ _ _ hi1 hi2 hd1 hd2 hs1 hs2, ?_, ?_⟩
  · rw [floor_toNat_cast (by linarith : (0:ℚ) ≤ (lat + 90) / 10),
      floor_toNat_cast (by rw [div_one]; linarith : (0:ℚ) ≤ pymod (lat + 90) 10 / 1),
      floor_toNat_cast (by rw [div_one]; linarith : (0:ℚ) ≤ pymod (lat + 90) 1 / 1 * 24),
      floor_pymod_10_1 (lat + 90), floor_pymod_1_24 (lat + 90)]
    have hf1 : ((⌊24 * (lat + 90)⌋ : ℤ) : ℚ) ≤ 24 * (lat + 90) := Int.floor_le _
    have hf2 : 24 * (lat + 90) < ⌊24 * (lat + 90)⌋ + 1 := Int.lt_floor_add_one _
    push_cast
    rw [abs_le]
    constructor <;> linarith
  · rw [floor_toNat_cast (by linarith : (0:ℚ) ≤ (lon + 180) / 20),
      floor_toNat_cast (by linarith : (0:ℚ) ≤ pymod (lon + 180) 20 / 2),
      floor_toNat_cast (by linarith : (0:ℚ) ≤ pymod (lon + 180) 2 / 2 * 24),
      floor_pymod_20_2 (lon + 180), floor_pymod_2_24 (lon + 180)]
    have hf1 : ((⌊12 * (lon + 180)⌋ : ℤ) : ℚ) ≤ 12 * (lon + 180) := Int.floor_le _
    have hf2 : 12 * (lon + 180) < ⌊12 * (lon + 180)⌋ + 1 := Int.lt_floor_add_one _
    push_cast
    rw [abs_le]
    constructor <;> linarith

theorem maidenhead_roundtrip_8 (lat lon : ℚ)
    (h1 : -90 ≤ lat) (h2 : lat < 90) (h3 : -180 ≤ lon) (h4 : lon ≤ 180) :
    ∃ g la lo, latlong_to_grid lat lon 8 = .ok g ∧ grid_to_latlong g = .ok (la, lo) ∧
      |la - lat| ≤ 1/480 ∧ |lo - lon| ≤ 1/240 := by
  have hi1 : (⌊(lon + 180) / 20⌋).toNat ≤ 23 := by
    have := floor_toNat_lt (k := 19) (y := (lon + 180) / 20)
      (by linarith) (by push_cast; linarith)
    omega
  have hi2 : (⌊(lat + 90) / 10⌋).toNat ≤ 17 := by
    have := floor_toNat_lt (k := 18) (y := (lat + 90) / 10)
      (by linarith) (by push_cast; linarith)
    omega
  have hmlon := pymod_nonneg (lon + 180) (by norm_num : (0:ℚ) < 20)
  have hmlon2 := pymod_lt (lon + 180) (by norm_num : (0:ℚ) < 20)
  have hmlat := pymod_nonneg (lat + 90) (by norm_num : (0:ℚ) < 10)
  have hmlat2 := pymod_lt (lat + 90) (by norm_num : (0:ℚ) < 10)
  have hm2lon := pymod_nonneg (lon + 180) (by norm_num : (0:ℚ) < 2)
  have hm2lon2 := pymod_lt (lon + 180) (by norm_num : (0:ℚ) < 2)
  have hm1lat := pymod_nonneg (lat + 90) (by norm_num : (0:ℚ) < 1)
  have hm1lat2 := pymod_lt (lat + 90) (by norm_num : (0:ℚ) < 1)
  have hexlon := pymod_nonneg (pymod (lon + 180) 2 / 2 * 24) (by norm_num : (0:ℚ) < 1)
  have hexlon2 := pymod_lt (pymod (lon + 180) 2 / 2 * 24) (by norm_num : (0:ℚ) < 1)
  have hexlat := pymod_nonneg (pymod (lat + 90) 1 / 1 * 24) (by norm_num : (0:ℚ) < 1)
  have hexlat2 := pymod_lt (pymod (lat + 90) 1 / 1 * 24) (by norm_num : (0:ℚ) < 1)
  have hd1 : (⌊pymod (lon + 180) 20 / 2⌋).toNat ≤ 9 := by
    have := floor_toNat_lt (k := 10) (y := pymod (lon + 180) 20 / 2)
      (by linarith) (by push_cast; linarith)
    omega
  have hd2 : (⌊pymod (lat + 90) 10 / 1⌋).toNat ≤ 9 := by
    have := floor_toNat_lt (k := 10) (y := pymod (lat + 90) 10 / 1)
      (by rw [div_one]; linarith) (by rw [div_one]; push_cast; linarith)
    omega
  have hs1 : (⌊pymod (lon + 180) 2 / 2 * 24⌋).toNat ≤ 23 := by
    have := floor_toNat_lt (k := 24) (y := pymod (lon + 180) 2 / 2 * 24)
      (by linarith) (by push_cast; linarith)
    omega
  have hs2 : (⌊pymod (lat + 90) 1 / 1 * 24⌋).toNat ≤ 23 := by
    have := floor_toNat_lt (k := 24) (y := pymod (lat + 90) 1 / 1 * 24)
      (by rw [div_one]; linarith) (by rw [div_one]; push_cast; linarith)
    omega
  have he1 : (⌊pymod (pymod (lon + 180) 2 / 2 * 24) 1 * 10⌋).toNat ≤ 9 := by
    have := floor_toNat_lt (k := 10) (y := pymod (pymod (lon + 180) 2 / 2 * 24) 1 * 10)
      (by linarith) (by push_cast; linarith)
    omega
  have he2 : (⌊pymod (pymod (lat + 90) 1 / 1 * 24) 1 * 10⌋).toNat ≤ 9 := by
    have := floor_toNat_lt (k := 10) (y := pymod (pymod (lat + 90) 1 / 1 * 24) 1 * 10)
      (by linarith) (by push_cast; linarith)
    omega
  refine ⟨_, _, _, latlong_to_grid_8 lat lon h1 (le_of_lt h2) h3 h4,
    grid_to_latlong_encode8 _ _ _ _ _ _ _ _ hi1 hi2 hd1 hd2 hs1 hs2 he1 he2, ?_, ?_⟩
  · rw [floor_toNat_cast (by linarith : (0:ℚ) ≤ (lat + 90) / 10),
      floor_toNat_cast (by rw [div_one]; linarith : (0:ℚ) ≤ pymod (lat + 90) 10 / 1),
      floor_toNat_cast (by rw [div_one]; linarith : (0:ℚ) ≤ pymod (lat + 90) 1 / 1 * 24),
      floor_toNat_cast (by linarith : (0:ℚ) ≤ pymod (pymod (lat + 90) 1 / 1 * 24) 1 * 10),
      floor_pymod_10_1 (lat + 90), floor_pymod_1_24 (lat + 90), floor_pymod_ext_lat (lat + 90)]
    have hf1 : ((⌊240 * (lat + 90)⌋ : ℤ) : ℚ) ≤ 240 * (lat + 90) := Int.floor_le _
    have hf2 : 240 * (lat + 90) < ⌊240 * (lat + 90)⌋ + 1 := Int.lt_floor_add_one _
    push_cast
    rw [abs_le]
    constructor <;> linarith
  · rw [floor_toNat_cast (by linarith : (0:ℚ) ≤ (lon + 180) / 20),
      floor_toNat_cast (by linarith : (0:ℚ) ≤ pymod (lon + 180) 20 / 2),
      floor_toNat_cast (by linarith : (0:ℚ) ≤ pymod (lon + 180) 2 / 2 * 24),
      floor_toNat_cast (by linarith : (0:ℚ) ≤ pymod (pymod (lon + 180) 2 / 2 * 24) 1 * 10),
      floor_pymod_20_2 (lon + 180), floor_pymod_2_24 (lon + 180), floor_pymod_ext_lon (lon + 180)]
    have hf1 : ((⌊120 * (lon + 180)⌋ : ℤ) : ℚ) ≤ 120 * (lon + 180) := Int.floor_le _
    have hf2 : 120 * (lon + 180) < ⌊120 * (lon + 180)⌋ + 1 := Int.lt_floor_add_one _
    push_cast
    rw [abs_le]
    constructor <;> linarith

end RoundTripMain

section RoundTripClaim

open HamClock HamClock.Maidenhead

/-- C3: the spec claims the round-trip succeeds for every valid
GeodeticPosition, latitude in [-90, 90].  Counterexample: at latitude 90
(north pole) the encoder emits second field letter 'S'
(`chr(ord('A') + int(180/10))`), but the decoder rejects any second letter
beyond 'R', so `grid_to_latlong(latlong_to_grid(90, 0, 2))` raises instead
of succeeding. -/
theorem roundtrip_fails_at_lat_90_cex :
    latlong_to_grid 90 0 2 = .ok ['J', 'S'] ∧
    grid_to_latlong ['J', 'S'] = .error "Invalid field letter" := by
  constructor
  · norm_num [latlong_to_grid, pymod]
    decide
  · rw [grid_to_latlong_pair 'J' 'S' (by decide) (by decide), if_neg (by decide),
      if_pos (by decide)]

/-- C3 (amended): for every GeodeticPosition with latitude in [-90, 90) —
latitude 90 itself makes the encoder emit a field letter the decoder
rejects — longitude in [-180, 180] and precision in {2, 4, 6, 8},
`grid_to_latlong (latlong_to_grid p)` succeeds and returns a point within
half the cell size (at that precision) of the input, in both latitude and
longitude. -/
theorem maidenhead_roundtrip (lat lon : ℚ) (p : ℕ)
    (h1 : -90 ≤ lat) (h2 : lat < 90) (h3 : -180 ≤ lon) (h4 : lon ≤ 180)
    (hp : p = 2 ∨ p = 4 ∨ p = 6 ∨ p = 8) :
    ∃ g la lo, latlong_to_grid lat lon p = .ok g ∧ grid_to_latlong g = .ok (la, lo) ∧
      |la - lat| ≤ cellHalfLat p ∧ |lo - lon| ≤ cellHalfLon p := by
  rcases hp with hp | hp | hp | hp <;> subst hp
  · exact maidenhead_roundtrip_2 lat lon h1 h2 h3 h4
  · exact maidenhead_roundtrip_4 lat lon h1 h2 h3 h4
  · exact maidenhead_roundtrip_6 lat lon h1 h2 h3 h4
  · exact maidenhead_roundtrip_8 lat lon h1 h2 h3 h4

theorem maidenhead_roundtrip_witness :
    ∃ g la lo, latlong_to_grid 40.75 (-73) 4 = .ok g ∧ grid_to_latlong g = .ok (la, lo) ∧
      |la - 40.75| ≤ cellHalfLat 4 ∧ |lo - (-73)| ≤ cellHalfLon 4 :=
  maidenhead_roundtrip 40.75 (-73) 4 (by norm_num) (by norm_num) (by norm_num) (by norm_num)
    (Or.inr (Or.inl rfl))

end RoundTripClaim
